import Mathlib

/-!
Verification of the file-compressor pipeline.

Shallow embedding of the compression pipeline implemented in `src/api.py`
(namespace `Api`) and `src/api/index.py` (namespace `ApiIndex`).

Pure parameter tables, dispatch logic, the text transforms and the
size-convergence loops are translated directly from the Python source.
External codecs (PIL image encoding, PyPDF2, pdf2image/img2pdf, zipfile)
are opaque capabilities in the source; they appear here as explicit
function arguments returning `Except Unit _` (a raised exception is
`Except.error ()`), so every control-flow decision of the Python code is
preserved while codec behaviour stays universally quantified.
-/

namespace FileCompressor

/-! ## Python string primitives

`str.split()`, `str.splitlines()`, `str.strip()` and `'sep'.join` modelled
over `List Char`.  The whitespace and line-break character sets follow
CPython's definitions (ASCII whitespace plus the common Unicode whitespace
code points recognised by `str.isspace`, and the `str.splitlines` boundary
set). -/

/-- Characters treated as whitespace by Python's `str.split()` / `str.strip()`. -/
def isPySpace (c : Char) : Bool :=
  c == ' ' || c == '\t' || c == '\n' || c == '\x0b' || c == '\x0c' || c == '\r' ||
  c == '\x1c' || c == '\x1d' || c == '\x1e' || c == '\x85' || c == '\xa0' ||
  c == '\u1680' || (0x2000 ≤ c.toNat && c.toNat ≤ 0x200a) ||
  c == '\u2028' || c == '\u2029' || c == '\u202f' || c == '\u205f' || c == '\u3000'

/-- Line boundaries of Python's `str.splitlines()` (besides the `"\r\n"` pair,
which is handled separately). -/
def isLineBreak (c : Char) : Bool :=
  c == '\n' || c == '\r' || c == '\x0b' || c == '\x0c' ||
  c == '\x1c' || c == '\x1d' || c == '\x1e' || c == '\x85' ||
  c == '\u2028' || c == '\u2029'

theorem isLineBreak_isPySpace {c : Char} (h : isLineBreak c = true) :
    isPySpace c = true := by
  simp only [isLineBreak, Bool.or_eq_true, beq_iff_eq] at h
  rcases h with ((((((((h | h) | h) | h) | h) | h) | h) | h) | h) | h <;>
    subst h <;> decide

/-- `str.split()` with no separator: accumulate the current token (in reverse)
and emit maximal runs of non-whitespace characters. -/
def splitAux : List Char → List Char → List (List Char)
  | [], acc => if acc = [] then [] else [acc.reverse]
  | c :: t, acc =>
    if isPySpace c then
      if acc = [] then splitAux t [] else acc.reverse :: splitAux t []
    else splitAux t (c :: acc)

/-- Python `s.split()` (no argument): maximal whitespace-free tokens. -/
def pySplit (s : List Char) : List (List Char) :=
  splitAux s []

/-- After a `'\r'`, `str.splitlines` also consumes an immediately
following `'\n'` (the `"\r\n"` boundary counts as a single break). -/
def crlfSkip (c : Char) (t : List Char) : List Char :=
  if c = '\r' then
    match t with
    | '\n' :: t2 => t2
    | _ => t
  else t

theorem length_crlfSkip_le (c : Char) (t : List Char) :
    (crlfSkip c t).length ≤ t.length := by
  unfold crlfSkip
  split
  · split <;> simp
  · exact Nat.le_refl _

/-- `str.splitlines()`: accumulate the current line (reversed); a terminal
line break does not produce a trailing empty line. -/
def splitlinesAux (s : List Char) (acc : List Char) : List (List Char) :=
  match s with
  | [] => if acc = [] then [] else [acc.reverse]
  | c :: t =>
    if isLineBreak c then acc.reverse :: splitlinesAux (crlfSkip c t) []
    else splitlinesAux t (c :: acc)
termination_by s.length
decreasing_by
  · exact Nat.lt_succ_of_le (length_crlfSkip_le c t)
  · exact Nat.lt_succ_self _

/-- Python `s.splitlines()`. -/
def pySplitlines (s : List Char) : List (List Char) :=
  splitlinesAux s []

/-- Python `'sep'.join(parts)`. -/
def joinSep (sep : List Char) : List (List Char) → List Char
  | [] => []
  | [x] => x
  | x :: y :: xs => x ++ sep ++ joinSep sep (y :: xs)

/-- Python `s.strip()` (no argument): drop whitespace from both ends. -/
def pyStrip (l : List Char) : List Char :=
  ((l.dropWhile isPySpace).reverse.dropWhile isPySpace).reverse

/-! ## Shared data model -/

/-- Final path component (the part after the last `'/'`), as `pathlib` uses. -/
def lastComponent (cs : List Char) : List Char :=
  (cs.reverse.takeWhile (fun c => c != '/')).reverse

/-- `pathlib.Path(name).suffix` over characters: the extension including its
dot; empty when there is no dot, when the dot is the leading character of the
name (hidden file), or when the dot is the final character. -/
def pathSuffixChars (cs : List Char) : List Char :=
  let revName := (lastComponent cs).reverse
  let ext := revName.takeWhile (fun c => c != '.')
  match revName.dropWhile (fun c => c != '.') with
  | [] => []
  | _ :: stemRev =>
    if ext = [] then []
    else if stemRev = [] then []
    else '.' :: ext.reverse

/-- `Path(filename).suffix.lower()`, the expression both dispatchers key on. -/
def lowerExt (filename : String) : String :=
  String.mk ((pathSuffixChars filename.toList).map Char.toLower)

/-- `int(request.form.get('target_size', 1))` (src/api.py:93,
src/api/index.py:58): an absent form field defaults to 1 (megabyte). -/
def parseTargetSize (field : Option Int) : Int :=
  field.getD 1

/-- Artifact produced by a PDF strategy, tagged with how it was produced. -/
inductive PdfArtifact where
  /-- PyPDF2 page-structure re-serialisation. -/
  | direct (size : Nat)
  /-- PyPDF2 unavailable: the original was copied to the output path. -/
  | importCopy (size : Nat)
  /-- pdf2image → JPEG pages → img2pdf reassembly. -/
  | raster (size : Nat)
  /-- Terminal fallback: unmodified copy of the original input. -/
  | copyOriginal (size : Nat)
deriving DecidableEq, Repr

/-- Byte size of a PDF artifact. -/
def PdfArtifact.size : PdfArtifact → Nat
  | .direct s | .importCopy s | .raster s | .copyOriginal s => s

/-- Artifact produced by an image strategy. -/
inductive ImageOutcome where
  /-- The first-pass encode, returned without target-driven re-compression. -/
  | firstPass (size : Nat)
  /-- Result of the size-convergence section, with the quality used at each
  re-encoding iteration (in order). -/
  | converged (size : Nat) (qualitiesTried : List Nat)
  /-- Exception caught: unmodified copy of the original input. -/
  | copyOriginal (size : Nat)
deriving DecidableEq, Repr

/-- Artifact produced by the document/generic (zip) strategies. -/
inductive DocOutcome where
  | zipped (size : Nat)
deriving DecidableEq, Repr

namespace Api

/-- `compress_text`, `level == 'extreme'` branch (src/api.py:370-373):
`lines = [line.strip() for line in content.splitlines() if line.strip()]`
then `' '.join(lines)`. -/
def text_extreme (content : List Char) : List Char :=
  joinSep [' '] (((pySplitlines content).map pyStrip).filter (fun l => !l.isEmpty))

/-- `compress_text`, non-extreme branch (src/api.py:374-383): per line,
`' '.join(line.split())`, keep non-empty lines, re-join with `'\n'`. -/
def text_normal (content : List Char) : List Char :=
  joinSep ['\n']
    (((pySplitlines content).map (fun line => joinSep [' '] (pySplit line))).filter
      (fun l => !l.isEmpty))

/-- The pure content transform of `compress_text` (src/api.py:360-391),
selected by level exactly as the source's `if level == 'extreme'`. -/
def text_transform (level : String) (content : List Char) : List Char :=
  if level = "extreme" then text_extreme content else text_normal content

/-- Result of the text strategy: transformed content, or (on any exception
inside the `try`) a copy of the original file (src/api.py:393-398). -/
inductive TextOutcome where
  | compressed (content : List Char)
  | copyOriginal
deriving DecidableEq, Repr

/-- `compress_text` (src/api.py:360-398): the file read / transform is the
fallible part; its failure is caught and the original file is returned. -/
def compress_text (level : String) (readResult : Except Unit (List Char)) :
    TextOutcome :=
  match readResult with
  | .ok content => .compressed (text_transform level content)
  | .error _ => .copyOriginal

/-- `get_quality_by_level` (src/api.py:400-407): baseline JPEG quality of the
image strategy, with `dict.get` default 60. -/
def get_quality_by_level (level : String) : Nat :=
  if level = "extreme" then 40
  else if level = "high" then 60
  else if level = "normal" then 80
  else 60

/-- `get_max_dimension_by_level` (src/api.py:409-416): maximum image dimension
of the image strategy, with `dict.get` default 1600. -/
def get_max_dimension_by_level (level : String) : Nat :=
  if level = "extreme" then 1200
  else if level = "high" then 1600
  else if level = "normal" then 2000
  else 1600

/-- DPI of the PDF raster path (src/api.py:228): `72 if level == 'extreme' else 96`. -/
def pdfRasterDpi (level : String) : Nat :=
  if level = "extreme" then 72 else 96

/-- Per-page JPEG quality of the PDF raster path (src/api.py:238):
`30 if level == 'extreme' else 50`. -/
def pdfRasterQuality (level : String) : Nat :=
  if level = "extreme" then 30 else 50

/-- `compress_pdf_via_images` (src/api.py:218-260): one rasterization pass at
the level-selected dpi/quality; any exception is caught and an unmodified copy
of the original is returned. -/
def compress_pdf_via_images (rasterCodec : Nat → Nat → Except Unit Nat)
    (level : String) (originalSize : Nat) : PdfArtifact :=
  match rasterCodec (pdfRasterDpi level) (pdfRasterQuality level) with
  | .ok s => .raster s
  | .error _ => .copyOriginal originalSize

/-- `compress_pdf` (src/api.py:179-216).  The Boolean records whether the
raster path (`compress_pdf_via_images`) was invoked.  Note the raster result
is returned as-is: the source never compares it against the direct output. -/
def compress_pdf (directResult : Except Unit Nat)
    (rasterCodec : Nat → Nat → Except Unit Nat)
    (level : String) (target_size_mb : Int) (originalSize : Nat) :
    PdfArtifact × Bool :=
  match directResult with
  | .ok size =>
    if 0 < target_size_mb ∧ target_size_mb * (1024 * 1024) < (size : Int) then
      (compress_pdf_via_images rasterCodec level originalSize, true)
    else (.direct size, false)
  | .error _ => (compress_pdf_via_images rasterCodec level originalSize, true)

/-- Body of the `for i in range(5)` loop of `compress_image_to_target`
(src/api.py:328-346).  Each iteration lowers quality to
`max(10, quality - 15)`, re-encodes the (unchanged) first-pass image and
accepts the result as soon as `current_size <= target_bytes or quality <= 20`;
if no iteration accepts, the first-pass artifact is returned.  The returned
list records the quality used at each re-encoding iteration. -/
def imageToTargetLoop (encSize : Nat → Nat) (targetBytes firstSize : Nat) :
    Nat → Nat → Nat × List Nat
  | 0, _ => (firstSize, [])
  | fuel + 1, quality =>
    let q := max 10 (quality - 15)
    let s := encSize q
    if s ≤ targetBytes ∨ q ≤ 20 then (s, [q])
    else
      let r := imageToTargetLoop encSize targetBytes firstSize fuel q
      (r.1, q :: r.2)

/-- `compress_image_to_target` (src/api.py:323-347): `max_iterations = 5`. -/
def compress_image_to_target (encSize : Nat → Nat)
    (targetBytes firstSize initialQuality : Nat) : Nat × List Nat :=
  imageToTargetLoop encSize targetBytes firstSize 5 initialQuality

/-- `compress_image` (src/api.py:262-321): first-pass encode (fallible), then
target-driven re-compression only when `target_size_mb > 0` and the first-pass
size exceeds `target_size_mb * 1024 * 1024`; any exception is caught and an
unmodified copy of the original is returned. -/
def compress_image (firstPass : Except Unit Nat) (encSize : Nat → Nat)
    (level : String) (target_size_mb : Int) (originalSize : Nat) :
    ImageOutcome :=
  match firstPass with
  | .error _ => .copyOriginal originalSize
  | .ok s0 =>
    if 0 < target_size_mb then
      if target_size_mb * (1024 * 1024) < (s0 : Int) then
        let r := compress_image_to_target encSize
          (target_size_mb * (1024 * 1024)).toNat s0 (get_quality_by_level level)
        .converged r.1 r.2
      else .firstPass s0
    else .firstPass s0

/-- `compress_document` (src/api.py:349-358): a single `zipfile` archive call
with no `try`/`except` around it, so a failure of the archive codec
propagates to the caller. -/
def compress_document (archiveResult : Except Unit Nat) :
    Except Unit DocOutcome :=
  archiveResult.map .zipped

/-- `is_supported_file` (src/api.py:159-163): the route-level gate; files
whose lowered extension is not in the list are rejected with a 400 response
before any strategy runs (src/api.py:100-106). -/
def is_supported_file (filename : String) : Bool :=
  decide (lowerExt filename ∈
    [".pdf", ".jpg", ".jpeg", ".png", ".doc", ".docx", ".txt"])

/-- Strategy chosen by `compress_based_on_type` (src/api.py:165-177). -/
inductive ApiFileKind where
  | pdf | image | document | text
deriving DecidableEq, Repr

/-- `compress_based_on_type` (src/api.py:165-177): the `else` branch is the
text strategy (reached only by `.txt` thanks to the route gate). -/
def compress_based_on_type (filePath : String) : ApiFileKind :=
  let ext := lowerExt filePath
  if ext = ".pdf" then .pdf
  else if ext ∈ [".jpg", ".jpeg", ".png"] then .image
  else if ext ∈ [".doc", ".docx"] then .document
  else .text

end Api

namespace ApiIndex

/-- Image-strategy quality by level (src/api/index.py:209-221). -/
def imageExtremeQuality (level : String) : Nat :=
  if level = "extreme" then 15 else if level = "high" then 40 else 60

/-- Image-strategy maximum width by level (src/api/index.py:209-221). -/
def imageExtremeMaxWidth (level : String) : Nat :=
  if level = "extreme" then 800 else if level = "high" then 1200 else 1600

/-- PDF raster DPI (src/api/index.py:147-149): `72`, or `50` for extreme. -/
def pdfExtremeDpi (level : String) : Nat :=
  if level = "extreme" then 50 else 72

/-- PDF raster per-page JPEG quality (src/api/index.py:159):
`20 if level == 'extreme' else 40`. -/
def pdfExtremeQuality (level : String) : Nat :=
  if level = "extreme" then 20 else 40

/-- PDF raster per-page maximum width (src/api/index.py:166):
`800 if level == 'extreme' else 1200`. -/
def pdfExtremeMaxWidth (level : String) : Nat :=
  if level = "extreme" then 800 else 1200

/-- Outcome of the PyPDF2 phase of `compress_pdf_extreme`
(src/api/index.py:110-130): success, `ImportError` (caught by the inner
handler, which copies the original to the output path), or any other
exception (caught only by the outermost handler). -/
inductive DirectOutcome where
  | ok (size : Nat)
  | importError
  | failure
deriving DecidableEq, Repr

/-- Target check and raster escalation of `compress_pdf_extreme`
(src/api/index.py:132-190), applied to the intermediate artifact left by the
PyPDF2 phase.  The raster output replaces the intermediate only when strictly
smaller (src/api/index.py:182-184); a raster failure keeps the intermediate.
The Boolean records whether the raster path was invoked. -/
def pdf_extreme_raster_step (inter : PdfArtifact)
    (rasterCodec : Nat → Nat → Nat → Except Unit Nat)
    (level : String) (target_size_mb : Int) : PdfArtifact × Bool :=
  let s := inter.size
  if 0 < target_size_mb ∧ target_size_mb * (1024 * 1024) < (s : Int) then
    match rasterCodec (pdfExtremeDpi level) (pdfExtremeQuality level)
        (pdfExtremeMaxWidth level) with
    | .ok f => (if f < s then .raster f else inter, true)
    | .error _ => (inter, true)
  else (inter, false)

/-- `compress_pdf_extreme` (src/api/index.py:105-196).  A non-import failure
of the PyPDF2 phase reaches the outermost handler, which copies the original
and returns — the raster path is never attempted in that case. -/
def compress_pdf_extreme (direct : DirectOutcome)
    (rasterCodec : Nat → Nat → Nat → Except Unit Nat)
    (level : String) (target_size_mb : Int) (originalSize : Nat) :
    PdfArtifact × Bool :=
  match direct with
  | .failure => (.copyOriginal originalSize, false)
  | .ok s => pdf_extreme_raster_step (.direct s) rasterCodec level target_size_mb
  | .importError =>
    pdf_extreme_raster_step (.importCopy originalSize) rasterCodec level
      target_size_mb

/-- The `while current_size > target_bytes and quality > 10` loop of
`compress_image_extreme` (src/api/index.py:252-269).  Each iteration lowers
quality to `max(5, quality - 10)` and re-encodes the current artifact
(`Image.open(output_path)`, so re-encoding is generational); the re-encode is
kept only when strictly smaller, otherwise it is deleted and the loop breaks.
`img : α` is the decoded current artifact, `encSize img q` the byte size of
re-encoding it at quality `q`, and `reenc img q` the artifact decoded from
that re-encode.  Returns the final size and the quality used at each
re-encoding iteration. -/
def imageExtremeLoop {α : Type} (encSize : α → Nat → Nat) (reenc : α → Nat → α)
    (targetBytes : Nat) (img : α) (currentSize quality : Nat) :
    Nat × List Nat :=
  if h : targetBytes < currentSize ∧ 10 < quality then
    let q := max 5 (quality - 10)
    let ns := encSize img q
    if ns < currentSize then
      let r := imageExtremeLoop encSize reenc targetBytes (reenc img q) ns q
      (r.1, q :: r.2)
    else (currentSize, [q])
  else (currentSize, [])
termination_by quality
decreasing_by
  exact Nat.max_lt.mpr ⟨by omega, by omega⟩

/-- `compress_image_extreme` (src/api/index.py:198-277): first-pass encode at
the level parameters (fallible), then — whenever `target_size_mb > 0` — the
size-convergence loop; any exception is caught and an unmodified copy of the
original is returned. -/
def compress_image_extreme {α : Type} (firstPass : Except Unit (α × Nat))
    (encSize : α → Nat → Nat) (reenc : α → Nat → α)
    (level : String) (target_size_mb : Int) (originalSize : Nat) :
    ImageOutcome :=
  match firstPass with
  | .error _ => .copyOriginal originalSize
  | .ok (img, s0) =>
    if 0 < target_size_mb then
      let r := imageExtremeLoop encSize reenc
        (target_size_mb * (1024 * 1024)).toNat img s0 (imageExtremeQuality level)
      .converged r.1 r.2
    else .firstPass s0

/-- Strategy chosen by the dispatch in `compress_file`
(src/api/index.py:74-83). -/
inductive IndexFileKind where
  | pdf | image | document | generic
deriving DecidableEq, Repr

/-- The extension dispatch of src/api/index.py:74-83: anything unrecognized
(including `.txt`) goes to `compress_generic_extreme`, i.e. zip archiving. -/
def dispatch_extreme (filePath : String) : IndexFileKind :=
  let ext := lowerExt filePath
  if ext = ".pdf" then .pdf
  else if ext ∈ [".jpg", ".jpeg", ".png", ".gif", ".bmp", ".webp"] then .image
  else if ext ∈ [".doc", ".docx", ".xls", ".xlsx", ".ppt", ".pptx"] then .document
  else .generic

/-- `compress_document_extreme` (src/api/index.py:279-290): a single zip call,
no local handler. -/
def compress_document_extreme (archiveResult : Except Unit Nat) :
    Except Unit DocOutcome :=
  archiveResult.map .zipped

/-- `compress_generic_extreme` (src/api/index.py:292-303): a single zip call,
no local handler. -/
def compress_generic_extreme (archiveResult : Except Unit Nat) :
    Except Unit DocOutcome :=
  archiveResult.map .zipped

end ApiIndex

/-! ## Claim C2: parameter tables -/

/-- Claim C2 (counterexample).  The claim's PDF-raster table promises quality
60 and width 1600 at level `normal` and quality 15–20 at level `extreme`, but
src/api/index.py uses quality 40 / width 1200 for every non-extreme level, and
src/api.py's raster path uses quality 30 at `extreme`. -/
theorem level_tables_cex :
    ApiIndex.pdfExtremeQuality "normal" = 40 ∧
    ApiIndex.pdfExtremeQuality "normal" ≠ 60 ∧
    ApiIndex.pdfExtremeMaxWidth "normal" = 1200 ∧
    ApiIndex.pdfExtremeMaxWidth "normal" ≠ 1600 ∧
    Api.pdfRasterQuality "extreme" = 30 ∧
    ¬(15 ≤ Api.pdfRasterQuality "extreme" ∧ Api.pdfRasterQuality "extreme" ≤ 20) := by
  refine ⟨rfl, by decide, rfl, by decide, rfl, by decide⟩

/-- Claim C2 (amended): the quality/dimension tables as implemented.
src/api.py's image baseline is 40/60/80 with max dimension 1200/1600/2000;
src/api/index.py's image strategy uses 15/40/60 with max width 800/1200/1600
(the table the spec attributes to the PDF-raster path); the PDF-raster paths
themselves distinguish only `extreme` from everything else: quality 20 / width
800, otherwise 40 / 1200 in src/api/index.py, and quality 30, otherwise 50,
with no width bound, in src/api.py. -/
theorem level_tables :
    (Api.get_quality_by_level "extreme" = 40 ∧ Api.get_quality_by_level "high" = 60 ∧
      Api.get_quality_by_level "normal" = 80) ∧
    (Api.get_max_dimension_by_level "extreme" = 1200 ∧
      Api.get_max_dimension_by_level "high" = 1600 ∧
      Api.get_max_dimension_by_level "normal" = 2000) ∧
    (ApiIndex.imageExtremeQuality "extreme" = 15 ∧
      ApiIndex.imageExtremeQuality "high" = 40 ∧
      ApiIndex.imageExtremeQuality "normal" = 60) ∧
    (ApiIndex.imageExtremeMaxWidth "extreme" = 800 ∧
      ApiIndex.imageExtremeMaxWidth "high" = 1200 ∧
      ApiIndex.imageExtremeMaxWidth "normal" = 1600) ∧
    (ApiIndex.pdfExtremeQuality "extreme" = 20 ∧
      ∀ l, l ≠ "extreme" → ApiIndex.pdfExtremeQuality l = 40) ∧
    (ApiIndex.pdfExtremeMaxWidth "extreme" = 800 ∧
      ∀ l, l ≠ "extreme" → ApiIndex.pdfExtremeMaxWidth l = 1200) ∧
    (Api.pdfRasterQuality "extreme" = 30 ∧
      ∀ l, l ≠ "extreme" → Api.pdfRasterQuality l = 50) ∧
    (Api.pdfRasterDpi "extreme" = 72 ∧
      ∀ l, l ≠ "extreme" → Api.pdfRasterDpi l = 96) ∧
    (ApiIndex.pdfExtremeDpi "extreme" = 50 ∧
      ∀ l, l ≠ "extreme" → ApiIndex.pdfExtremeDpi l = 72) := by
  refine ⟨⟨rfl, rfl, rfl⟩, ⟨rfl, rfl, rfl⟩, ⟨rfl, rfl, rfl⟩, ⟨rfl, rfl, rfl⟩,
    ⟨rfl, ?_⟩, ⟨rfl, ?_⟩, ⟨rfl, ?_⟩, ⟨rfl, ?_⟩, ⟨rfl, ?_⟩⟩ <;>
    intro l h <;>
    simp only [ApiIndex.pdfExtremeQuality, ApiIndex.pdfExtremeMaxWidth,
      Api.pdfRasterQuality, Api.pdfRasterDpi, ApiIndex.pdfExtremeDpi, if_neg h]

/-- Witness for `level_tables` at the concrete level `"normal"`. -/
theorem level_tables_witness :
    ApiIndex.pdfExtremeQuality "normal" = 40 ∧ Api.pdfRasterQuality "normal" = 50 := by
  obtain ⟨-, -, -, -, ⟨-, hq⟩, -, ⟨-, hr⟩, -, -⟩ := level_tables
  exact ⟨hq "normal" (by decide), hr "normal" (by decide)⟩

/-! ## Claim C4: keep the smaller of Direct and RasterFallback -/

/-- Claim C4 (counterexample).  In src/api.py's `compress_pdf`, once the
raster pass runs its output is returned unconditionally: with a 5 MiB direct
output, a 1 MB target and a 10 MiB raster output, the 10 MiB raster artifact
is returned even though the direct output is smaller. -/
theorem pdf_smaller_choice_cex :
    Api.compress_pdf (.ok 5242880) (fun _ _ => .ok 10485760) "extreme" 1 0
      = (.raster 10485760, true) ∧ (5242880 : Nat) < 10485760 := by
  exact ⟨rfl, by norm_num⟩

/-- Claim C4 (amended): only src/api/index.py's `compress_pdf_extreme`
compares sizes: when the raster pass completes with output size `f` against an
intermediate of size `s`, the returned artifact is the raster output exactly
when `f < s`, and its size is `min f s`; src/api.py returns the raster output
without any comparison (see `pdf_smaller_choice_cex`). -/
theorem pdf_extreme_keeps_smaller (level : String) (t : Int) (s f orig : Nat)
    (ht : 0 < t) (hs : t * (1024 * 1024) < (s : Int)) :
    ApiIndex.compress_pdf_extreme (.ok s) (fun _ _ _ => .ok f) level t orig
      = ((if f < s then PdfArtifact.raster f else .direct s), true) ∧
    ((ApiIndex.compress_pdf_extreme (.ok s) (fun _ _ _ => .ok f) level t
        orig).1).size = min f s := by
  have hstep : ApiIndex.compress_pdf_extreme (.ok s) (fun _ _ _ => .ok f) level t orig
      = ((if f < s then PdfArtifact.raster f else .direct s), true) := by
    show ApiIndex.pdf_extreme_raster_step (.direct s) (fun _ _ _ => .ok f) level t = _
    simp only [ApiIndex.pdf_extreme_raster_step, PdfArtifact.size]
    rw [if_pos ⟨ht, hs⟩]
  refine ⟨hstep, ?_⟩
  rw [hstep]
  by_cases hf : f < s
  · simp [if_pos hf, PdfArtifact.size, Nat.min_eq_left (Nat.le_of_lt hf)]
  · simp [if_neg hf, PdfArtifact.size, Nat.min_eq_right (Nat.le_of_not_lt hf)]

/-- Witness for `pdf_extreme_keeps_smaller` at concrete inputs. -/
theorem pdf_extreme_keeps_smaller_witness :
    ApiIndex.compress_pdf_extreme (.ok 2097152) (fun _ _ _ => .ok 5) "high" 1 0
      = (.raster 5, true) ∧
    ((ApiIndex.compress_pdf_extreme (.ok 2097152) (fun _ _ _ => .ok 5) "high" 1
        0).1).size = min 5 2097152 := by
  have h := pdf_extreme_keeps_smaller "high" 1 2097152 5 0 (by norm_num) (by norm_num)
  refine ⟨?_, h.2⟩
  rw [h.1, if_pos (by norm_num)]

/-! ## Claim C5: when the raster fallback runs -/

/-- Claim C5 (counterexample).  In src/api/index.py a failure of the PyPDF2
phase reaches only the outermost handler, which copies the original and
returns: the raster path is NOT invoked (flag `false`), although the claim
requires rasterization whenever the Direct path raises. -/
theorem raster_trigger_cex :
    ApiIndex.compress_pdf_extreme .failure (fun _ _ _ => .ok 0) "extreme" 1 10485760
      = (.copyOriginal 10485760, false) := rfl

/-- Claim C5 (amended).  In src/api.py the raster path runs iff the direct
pass raises or (`target_size_mb > 0` and the direct output exceeds the
target); in src/api/index.py it runs iff the target is positive and the
intermediate output (direct result, or the copied original when PyPDF2 is
missing) exceeds the target — a direct failure goes straight to
copy-original.  In both files, a direct output within the target means the
raster path never runs. -/
theorem raster_trigger_iff :
    (∀ (direct : Except Unit Nat) (rc : Nat → Nat → Except Unit Nat)
        (level : String) (t : Int) (orig : Nat),
      (Api.compress_pdf direct rc level t orig).2 = true ↔
        direct = .error () ∨
          ∃ s, direct = .ok s ∧ 0 < t ∧ t * (1024 * 1024) < (s : Int)) ∧
    (∀ (rc : Nat → Nat → Nat → Except Unit Nat) (level : String) (t : Int)
        (orig s : Nat),
      (ApiIndex.compress_pdf_extreme (.ok s) rc level t orig).2 = true ↔
        0 < t ∧ t * (1024 * 1024) < (s : Int)) ∧
    (∀ (rc : Nat → Nat → Nat → Except Unit Nat) (level : String) (t : Int)
        (orig : Nat),
      (ApiIndex.compress_pdf_extreme .importError rc level t orig).2 = true ↔
        0 < t ∧ t * (1024 * 1024) < (orig : Int)) ∧
    (∀ (rc : Nat → Nat → Nat → Except Unit Nat) (level : String) (t : Int)
        (orig : Nat),
      (ApiIndex.compress_pdf_extreme .failure rc level t orig).2 = false) ∧
    (∀ (rc : Nat → Nat → Except Unit Nat) (rc2 : Nat → Nat → Nat → Except Unit Nat)
        (level : String) (t : Int) (orig s : Nat),
      0 < t → (s : Int) ≤ t * (1024 * 1024) →
      (Api.compress_pdf (.ok s) rc level t orig).2 = false ∧
      (ApiIndex.compress_pdf_extreme (.ok s) rc2 level t orig).2 = false) := by
  have hstep : ∀ (inter : PdfArtifact) (rc : Nat → Nat → Nat → Except Unit Nat)
      (level : String) (t : Int),
      (ApiIndex.pdf_extreme_raster_step inter rc level t).2 = true ↔
        0 < t ∧ t * (1024 * 1024) < (inter.size : Int) := by
    intro inter rc level t
    simp only [ApiIndex.pdf_extreme_raster_step]
    by_cases h : 0 < t ∧ t * (1024 * 1024) < (inter.size : Int)
    · rw [if_pos h]
      rcases hrc : rc (ApiIndex.pdfExtremeDpi level) (ApiIndex.pdfExtremeQuality level)
          (ApiIndex.pdfExtremeMaxWidth level) with f | e <;> simp [hrc, h] <;> omega
    · rw [if_neg h]
      simpa using h
  refine ⟨?_, ?_, ?_, ?_, ?_⟩
  · intro direct rc level t orig
    cases direct with
    | error e =>
      cases e
      simp [Api.compress_pdf]
    | ok s =>
      by_cases h : 0 < t ∧ t * (1024 * 1024) < (s : Int)
      · simp only [Api.compress_pdf, if_pos h]
        simp [h]
        omega
      · simp only [Api.compress_pdf, if_neg h]
        simp only [Bool.false_eq_true, false_iff, not_or]
        refine ⟨by simp, ?_⟩
        rintro ⟨s2, hs2, hrest⟩
        obtain rfl : s2 = s := by
          injection hs2 with h2
          exact h2.symm
        exact h hrest
  · intro rc level t orig s
    simpa [PdfArtifact.size] using hstep (.direct s) rc level t
  · intro rc level t orig
    simpa [PdfArtifact.size] using hstep (.importCopy orig) rc level t
  · intro rc level t orig
    rfl
  · intro rc rc2 level t orig s ht hs
    constructor
    · simp only [Api.compress_pdf]
      rw [if_neg (by omega)]
    · have h := hstep (.direct s) rc2 level t
      simp only [PdfArtifact.size] at h
      show (ApiIndex.pdf_extreme_raster_step (.direct s) rc2 level t).2 = false
      rcases hb : (ApiIndex.pdf_extreme_raster_step (.direct s) rc2 level t).2 with _ | _
      · rfl
      · exact absurd (h.mp hb) (by omega)

/-- Witness for `raster_trigger_iff`: a 100-byte direct output under a 1 MB
target never triggers rasterization, in either file. -/
theorem raster_trigger_iff_witness :
    (Api.compress_pdf (.ok 100) (fun _ _ => .ok 0) "extreme" 1 0).2 = false ∧
    (ApiIndex.compress_pdf_extreme (.ok 100) (fun _ _ _ => .ok 0) "extreme" 1
      0).2 = false := by
  exact raster_trigger_iff.2.2.2.2 _ _ "extreme" 1 0 100 (by norm_num) (by norm_num)

/-! ## Claim C6: failure handling of the strategies -/

/-- Claim C6 (counterexample).  `compress_document` (src/api.py:349-358) wraps
its single `zipfile` call in no `try`/`except`: a failing archive codec
propagates out of the strategy instead of producing a copy of the original. -/
theorem document_propagates_cex :
    Api.compress_document (.error ()) = .error () := rfl

/-- Claim C6 (amended).  The PDF, Image and Text strategies catch codec
failures at their boundary: src/api.py's PDF strategy escalates
Direct→Raster→copy-original, src/api/index.py's PDF strategy falls back to a
copy of the original, and the image/text strategies return a copy of the
original on failure.  The Document/Generic strategies, by contrast, have no
local handler, so an archive failure propagates to the route-level handler
(which returns an error response, not an artifact). -/
theorem strategy_fallback_chain :
    (∀ (level : String) (t : Int) (orig : Nat),
      Api.compress_pdf (.error ()) (fun _ _ => .error ()) level t orig
        = (.copyOriginal orig, true)) ∧
    (∀ (level : String) (t : Int) (orig f : Nat),
      Api.compress_pdf (.error ()) (fun _ _ => .ok f) level t orig
        = (.raster f, true)) ∧
    (∀ (enc : Nat → Nat) (level : String) (t : Int) (orig : Nat),
      Api.compress_image (.error ()) enc level t orig = .copyOriginal orig) ∧
    (∀ level : String, Api.compress_text level (.error ()) = .copyOriginal) ∧
    (∀ (level : String) (t : Int) (orig : Nat),
      ApiIndex.compress_pdf_extreme .failure (fun _ _ _ => .error ()) level t orig
        = (.copyOriginal orig, false)) ∧
    (∀ (enc : Nat → Nat → Nat) (reenc : Nat → Nat → Nat) (level : String)
        (t : Int) (orig : Nat),
      ApiIndex.compress_image_extreme (.error ()) enc reenc level t orig
        = .copyOriginal orig) ∧
    Api.compress_document (.error ()) = .error () ∧
    ApiIndex.compress_document_extreme (.error ()) = .error () ∧
    ApiIndex.compress_generic_extreme (.error ()) = .error () := by
  exact ⟨fun _ _ _ => rfl, fun _ _ _ _ => rfl, fun _ _ _ _ => rfl, fun _ => rfl,
    fun _ _ _ => rfl, fun _ _ _ _ _ => rfl, rfl, rfl, rfl⟩

/-! ## Claim C7: the type classifier -/

/-- Claim C7 (counterexample).  src/api.py does have an error path for
unrecognized extensions: `is_supported_file "report.xyz"` is `false`, and the
route then answers 400 instead of classifying the file as generic; moreover
src/api.py's own dispatch sends its residual class (`.txt`) to the text
strategy, not to archive compression. -/
theorem classifier_rejection_cex :
    Api.is_supported_file "report.xyz" = false ∧
    Api.compress_based_on_type "notes.txt" = .text := by
  exact ⟨by decide, by decide⟩

/-- Claim C7 (amended).  Extension handling is case-insensitive via
`Path(...).suffix.lower()` in both files, but only src/api/index.py is total
with a generic-archive fallback (where even `.txt` is generic); src/api.py
accepts exactly the seven listed extensions — everything else is rejected at
the route — and its dispatch's residual branch is the text strategy. -/
theorem classifier_dispatch :
    (∀ fn, Api.is_supported_file fn = true ↔
      lowerExt fn ∈ [".pdf", ".jpg", ".jpeg", ".png", ".doc", ".docx", ".txt"]) ∧
    (∀ fn, lowerExt fn ∉ [".pdf", ".jpg", ".jpeg", ".png", ".gif", ".bmp",
        ".webp", ".doc", ".docx", ".xls", ".xlsx", ".ppt", ".pptx"] →
      ApiIndex.dispatch_extreme fn = .generic) ∧
    (∀ fn, lowerExt fn ∉ [".pdf", ".jpg", ".jpeg", ".png", ".doc", ".docx"] →
      Api.compress_based_on_type fn = .text) ∧
    (∀ fn, lowerExt fn = ".txt" →
      ApiIndex.dispatch_extreme fn = .generic ∧
      Api.compress_based_on_type fn = .text) := by
  refine ⟨?_, ?_, ?_, ?_⟩
  · intro fn
    simp [Api.is_supported_file]
  · intro fn h
    simp only [List.mem_cons, List.not_mem_nil, or_false, not_or] at h
    obtain ⟨h1, h2, h3, h4, h5, h6, h7, h8, h9, h10, h11, h12, h13⟩ := h
    simp [ApiIndex.dispatch_extreme, h1, h2, h3, h4, h5, h6, h7, h8, h9, h10,
      h11, h12, h13]
  · intro fn h
    simp only [List.mem_cons, List.not_mem_nil, or_false, not_or] at h
    obtain ⟨h1, h2, h3, h4, h5, h6⟩ := h
    simp [Api.compress_based_on_type, h1, h2, h3, h4, h5, h6]
  · intro fn h
    constructor
    · simp [ApiIndex.dispatch_extreme, h]
    · simp [Api.compress_based_on_type, h]

/-- Witness for `classifier_dispatch` at concrete filenames. -/
theorem classifier_dispatch_witness :
    ApiIndex.dispatch_extreme "data.bin" = .generic ∧
    Api.compress_based_on_type "data.bin" = .text ∧
    ApiIndex.dispatch_extreme "NOTES.TXT" = .generic := by
  exact ⟨classifier_dispatch.2.1 "data.bin" (by decide),
    classifier_dispatch.2.2.1 "data.bin" (by decide),
    (classifier_dispatch.2.2.2 "NOTES.TXT" (by decide)).1⟩

/-! ## Claim C10: default and zero target size -/

/-- Claim C10 (counterexample).  `target_size = -1` (a non-zero value the form
parser `int(...)` accepts) also returns the first-pass artifact
unconditionally — here with an encoder whose re-encodes all have size 0, which
would beat any byte budget — so `target_size = 0` is not the only way. -/
theorem target_size_zero_cex :
    Api.compress_image (.ok 10485760) (fun _ => 0) "extreme" (-1) 0
      = .firstPass 10485760 ∧ (-1 : Int) ≠ 0 := by
  exact ⟨rfl, by decide⟩

/-- Claim C10 (amended).  The form field defaults to 1 (MB) when absent, so an
omitted target still drives the convergence machinery against a 1 MB budget;
the strategies skip target-driven re-compression exactly when
`target_size_mb ≤ 0` — every non-positive target (not only 0) yields the
first-pass artifact unconditionally. -/
theorem target_size_semantics :
    parseTargetSize none = 1 ∧
    (∀ f : Int, parseTargetSize (some f) = f) ∧
    (∀ (enc : Nat → Nat) (level : String) (orig s0 : Nat) (t : Int), t ≤ 0 →
      Api.compress_image (.ok s0) enc level t orig = .firstPass s0) ∧
    (∀ (enc : Nat → Nat) (level : String) (orig s0 : Nat) (t : Int),
      0 < t → t * (1024 * 1024) < (s0 : Int) →
      Api.compress_image (.ok s0) enc level t orig
        = .converged
            (Api.compress_image_to_target enc (t * (1024 * 1024)).toNat s0
              (Api.get_quality_by_level level)).1
            (Api.compress_image_to_target enc (t * (1024 * 1024)).toNat s0
              (Api.get_quality_by_level level)).2) ∧
    (∀ (enc : Nat → Nat → Nat) (reenc : Nat → Nat → Nat) (level : String)
        (orig img s0 : Nat) (t : Int), t ≤ 0 →
      ApiIndex.compress_image_extreme (.ok (img, s0)) enc reenc level t orig
        = .firstPass s0) ∧
    (∀ (enc : Nat → Nat → Nat) (reenc : Nat → Nat → Nat) (level : String)
        (orig img s0 : Nat) (t : Int), 0 < t →
      ApiIndex.compress_image_extreme (.ok (img, s0)) enc reenc level t orig
        = .converged
            (ApiIndex.imageExtremeLoop enc reenc (t * (1024 * 1024)).toNat img
              s0 (ApiIndex.imageExtremeQuality level)).1
            (ApiIndex.imageExtremeLoop enc reenc (t * (1024 * 1024)).toNat img
              s0 (ApiIndex.imageExtremeQuality level)).2) := by
  refine ⟨rfl, fun _ => rfl, ?_, ?_, ?_, ?_⟩
  · intro enc level orig s0 t ht
    simp only [Api.compress_image]
    rw [if_neg (by omega)]
  · intro enc level orig s0 t ht hs
    simp only [Api.compress_image]
    rw [if_pos ht, if_pos hs]
  · intro enc reenc level orig img s0 t ht
    simp only [ApiIndex.compress_image_extreme]
    rw [if_neg (by omega)]
  · intro enc reenc level orig img s0 t ht
    simp only [ApiIndex.compress_image_extreme]
    rw [if_pos ht]

/-- Witness for `target_size_semantics`: the default is 1 and a negative
target skips re-compression. -/
theorem target_size_semantics_witness :
    parseTargetSize none = 1 ∧
    Api.compress_image (.ok 7) (fun _ => 0) "high" (-3) 2 = .firstPass 7 := by
  exact ⟨target_size_semantics.1,
    target_size_semantics.2.2.1 (fun _ => 0) "high" 2 7 (-3) (by norm_num)⟩

/-! ## Claim C1: acceptance guard of the convergence loop -/

/-- Claim C1 (counterexample).  src/api.py's loop accepts a re-encode as soon
as `current_size <= target_bytes or quality <= 20`, never comparing it against
the current best: with a 2000000-byte first pass over a 1 MB target and an
encoder producing 3000000 bytes at quality 25 and 5000000 bytes at quality 10,
the loop returns a 5000000-byte artifact — larger than the first pass. -/
theorem image_loop_growth_cex :
    Api.compress_image (.ok 2000000)
        (fun q => if q = 25 then 3000000 else 5000000) "extreme" 1 0
      = .converged 5000000 [25, 10] ∧
    (2000000 : Nat) < 5000000 := by
  exact ⟨rfl, by norm_num⟩

/-- Claim C1 (amended).  The strictly-smaller acceptance guard
("accept only if smaller, else discard and stop") is implemented only in
src/api/index.py's loop, whose result therefore never exceeds the size it
starts from (the first-pass size).  src/api.py's `compress_image_to_target`
accepts on target/quality-floor conditions without comparing to the current
best and can return a larger artifact (see `image_loop_growth_cex`). -/
theorem image_extreme_loop_never_grows {α : Type} (encSize : α → Nat → Nat)
    (reenc : α → Nat → α) (targetBytes : Nat) (img : α)
    (currentSize quality : Nat) :
    (ApiIndex.imageExtremeLoop encSize reenc targetBytes img currentSize
        quality).1 ≤ currentSize := by
  induction quality using Nat.strong_induction_on generalizing img currentSize with
  | _ q ih =>
    by_cases h : targetBytes < currentSize ∧ 10 < q
    · by_cases hlt : encSize img (max 5 (q - 10)) < currentSize
      · rw [ApiIndex.imageExtremeLoop]
        simp only [dif_pos h, if_pos hlt]
        exact le_trans
          (ih (max 5 (q - 10)) (by omega) (reenc img (max 5 (q - 10)))
            (encSize img (max 5 (q - 10))))
          (Nat.le_of_lt hlt)
      · rw [ApiIndex.imageExtremeLoop]
        simp only [dif_pos h, if_neg hlt]
        exact Nat.le_refl _
    · rw [ApiIndex.imageExtremeLoop, dif_neg h]

/-! ## Claim C3: the convergence loop is bounded -/

/-- The `for i in range(5)` loop of src/api.py performs at most `fuel`
re-encoding iterations. -/
theorem imageToTargetLoop_length (encSize : Nat → Nat) (tb fs : Nat) :
    ∀ fuel q, (Api.imageToTargetLoop encSize tb fs fuel q).2.length ≤ fuel := by
  intro fuel
  induction fuel with
  | zero => intro q; simp [Api.imageToTargetLoop]
  | succ n ih =>
    intro q
    rw [Api.imageToTargetLoop]
    by_cases h : encSize (max 10 (q - 15)) ≤ tb ∨ max 10 (q - 15) ≤ 20
    · simp only [if_pos h]
      simp
    · simp only [if_neg h, List.length_cons]
      exact Nat.succ_le_succ (ih _)

/-- Each iteration of src/api/index.py's `while` loop lowers quality by at
least 10 and the loop needs `quality > 10`, so the number of re-encoding
iterations is bounded by the starting quality. -/
theorem imageExtremeLoop_length {α : Type} (encSize : α → Nat → Nat)
    (reenc : α → Nat → α) (tb : Nat) :
    ∀ q (img : α) (cs : Nat),
      10 * (ApiIndex.imageExtremeLoop encSize reenc tb img cs q).2.length < q ∨
      (ApiIndex.imageExtremeLoop encSize reenc tb img cs q).2.length = 0 := by
  intro q
  induction q using Nat.strong_induction_on with
  | _ q ih =>
    intro img cs
    by_cases h : tb < cs ∧ 10 < q
    · by_cases hlt : encSize img (max 5 (q - 10)) < cs
      · rw [ApiIndex.imageExtremeLoop]
        simp only [dif_pos h, if_pos hlt, List.length_cons]
        left
        rcases ih (max 5 (q - 10)) (by omega) (reenc img (max 5 (q - 10)))
            (encSize img (max 5 (q - 10))) with h1 | h1 <;> omega
      · rw [ApiIndex.imageExtremeLoop]
        simp only [dif_pos h, if_neg hlt]
        left
        simp only [List.length_cons, List.length_nil]
        omega
    · rw [ApiIndex.imageExtremeLoop, dif_neg h]
      right
      rfl

/-- Claim C3: both convergence loops terminate for every input (they are total
functions of their arguments) and perform at most 5 re-encoding iterations:
src/api.py's loop by its `max_iterations = 5` fuel, src/api/index.py's loop
because every level's starting quality is at most 60 and each iteration costs
at least 10 quality points above the floor of the `quality > 10` guard. -/
theorem convergence_iterations_le_five :
    (∀ (encSize : Nat → Nat) (tb s0 q0 : Nat),
      (Api.compress_image_to_target encSize tb s0 q0).2.length ≤ 5) ∧
    (∀ {α : Type} (encSize : α → Nat → Nat) (reenc : α → Nat → α)
        (tb : Nat) (img : α) (s0 : Nat) (level : String),
      (ApiIndex.imageExtremeLoop encSize reenc tb img s0
          (ApiIndex.imageExtremeQuality level)).2.length ≤ 5) := by
  constructor
  · intro encSize tb s0 q0
    exact imageToTargetLoop_length encSize tb s0 5 q0
  · intro α encSize reenc tb img s0 level
    have hq : ApiIndex.imageExtremeQuality level ≤ 60 := by
      unfold ApiIndex.imageExtremeQuality
      split
      · omega
      · split <;> omega
    rcases imageExtremeLoop_length encSize reenc tb
        (ApiIndex.imageExtremeQuality level) img s0 with h | h <;> omega

/-! ## Claim C8: quality is non-increasing -/

/-- Quality chain of src/api.py's loop: every consecutive pair of the
iteration trace satisfies `next = max(10, current - 15) ≤ current`, starting
from any quality at least 10. -/
theorem imageToTargetLoop_chain (encSize : Nat → Nat) (tb fs : Nat) :
    ∀ fuel q, 10 ≤ q →
      List.Chain (fun a b => b = max 10 (a - 15) ∧ b ≤ a) q
        (Api.imageToTargetLoop encSize tb fs fuel q).2 := by
  intro fuel
  induction fuel with
  | zero => intro q _; exact List.Chain.nil
  | succ n ih =>
    intro q hq
    rw [Api.imageToTargetLoop]
    by_cases h : encSize (max 10 (q - 15)) ≤ tb ∨ max 10 (q - 15) ≤ 20
    · simp only [if_pos h]
      exact List.Chain.cons ⟨rfl, by omega⟩ List.Chain.nil
    · simp only [if_neg h]
      exact List.Chain.cons ⟨rfl, by omega⟩ (ih _ (by omega))

/-- Quality chain of src/api/index.py's loop: every consecutive pair of the
iteration trace satisfies `next = max(5, current - 10) ≤ current` (the loop
guard `quality > 10` makes the decrease genuine). -/
theorem imageExtremeLoop_chain {α : Type} (encSize : α → Nat → Nat)
    (reenc : α → Nat → α) (tb : Nat) :
    ∀ q (img : α) (cs : Nat),
      List.Chain (fun a b => b = max 5 (a - 10) ∧ b ≤ a) q
        (ApiIndex.imageExtremeLoop encSize reenc tb img cs q).2 := by
  intro q
  induction q using Nat.strong_induction_on with
  | _ q ih =>
    intro img cs
    by_cases h : tb < cs ∧ 10 < q
    · by_cases hlt : encSize img (max 5 (q - 10)) < cs
      · rw [ApiIndex.imageExtremeLoop]
        simp only [dif_pos h, if_pos hlt]
        exact List.Chain.cons ⟨rfl, by omega⟩
          (ih (max 5 (q - 10)) (by omega) (reenc img (max 5 (q - 10)))
            (encSize img (max 5 (q - 10))))
      · rw [ApiIndex.imageExtremeLoop]
        simp only [dif_pos h, if_neg hlt]
        exact List.Chain.cons ⟨rfl, by omega⟩ List.Chain.nil
    · rw [ApiIndex.imageExtremeLoop, dif_neg h]
      exact List.Chain.nil

/-- Claim C8: in both convergence loops the quality parameter is
non-increasing across iterations and each next quality equals
`max(floor, current - step)` — floor 10 / step 15 in src/api.py, floor 5 /
step 10 in src/api/index.py — starting from the level-selected quality. -/
theorem quality_non_increasing :
    (∀ (encSize : Nat → Nat) (tb s0 : Nat) (level : String),
      List.Chain (fun a b => b = max 10 (a - 15) ∧ b ≤ a)
        (Api.get_quality_by_level level)
        (Api.compress_image_to_target encSize tb s0
          (Api.get_quality_by_level level)).2) ∧
    (∀ {α : Type} (encSize : α → Nat → Nat) (reenc : α → Nat → α) (tb : Nat)
        (img : α) (s0 : Nat) (level : String),
      List.Chain (fun a b => b = max 5 (a - 10) ∧ b ≤ a)
        (ApiIndex.imageExtremeQuality level)
        (ApiIndex.imageExtremeLoop encSize reenc tb img s0
          (ApiIndex.imageExtremeQuality level)).2) := by
  constructor
  · intro encSize tb s0 level
    have hq : 10 ≤ Api.get_quality_by_level level := by
      unfold Api.get_quality_by_level
      split
      · omega
      · split
        · omega
        · split <;> omega
    exact imageToTargetLoop_chain encSize tb s0 5 _ hq
  · intro α encSize reenc tb img s0 level
    exact imageExtremeLoop_chain encSize reenc tb _ img s0

/-! ## Claim C9: idempotence of the normal text transform -/

/-- Every token produced by `splitAux` is non-empty and whitespace-free
(provided the accumulator only holds non-whitespace characters). -/
theorem splitAux_tokens :
    ∀ (s acc : List Char), (∀ c ∈ acc, isPySpace c = false) →
      ∀ t ∈ splitAux s acc, t ≠ [] ∧ ∀ c ∈ t, isPySpace c = false := by
  intro s
  induction s with
  | nil =>
    intro acc hacc t ht
    by_cases h : acc = []
    · simp [splitAux, h] at ht
    · simp only [splitAux, if_neg h, List.mem_singleton] at ht
      subst ht
      refine ⟨by simpa using h, ?_⟩
      intro c hc
      exact hacc c (List.mem_reverse.mp hc)
  | cons c s ih =>
    intro acc hacc t ht
    simp only [splitAux] at ht
    by_cases hc : isPySpace c
    · rw [if_pos hc] at ht
      by_cases h : acc = []
      · rw [if_pos h] at ht
        exact ih [] (by simp) t ht
      · rw [if_neg h] at ht
        rcases List.mem_cons.mp ht with h1 | h1
        · subst h1
          refine ⟨by simpa using h, ?_⟩
          intro c2 hc2
          exact hacc c2 (List.mem_reverse.mp hc2)
        · exact ih [] (by simp) t h1
    · rw [if_neg hc] at ht
      refine ih (c :: acc) ?_ t ht
      intro c2 hc2
      rcases List.mem_cons.mp hc2 with h1 | h1
      · subst h1
        simpa using hc
      · exact hacc c2 h1

/-- Scanning a whitespace-free token just moves it (reversed) into the
accumulator. -/
theorem splitAux_append_token :
    ∀ (tok : List Char), (∀ c ∈ tok, isPySpace c = false) →
      ∀ (rest acc : List Char),
        splitAux (tok ++ rest) acc = splitAux rest (tok.reverse ++ acc) := by
  intro tok
  induction tok with
  | nil => intro _ rest acc; simp
  | cons c tk ih =>
    intro h rest acc
    have hc : isPySpace c = false := h c (List.mem_cons_self c tk)
    rw [List.cons_append]
    simp only [splitAux, hc, Bool.false_eq_true, if_false]
    rw [ih (fun c2 h2 => h c2 (List.mem_cons_of_mem c h2)) rest (c :: acc)]
    congr 1
    simp [List.reverse_cons, List.append_assoc]

/-- `' '.join(tokens).split()` recovers the tokens, when every token is
non-empty and whitespace-free. -/
theorem pySplit_joinSep :
    ∀ (ts : List (List Char)),
      (∀ t ∈ ts, t ≠ [] ∧ ∀ c ∈ t, isPySpace c = false) →
      pySplit (joinSep [' '] ts) = ts := by
  intro ts
  induction ts with
  | nil => intro _; rfl
  | cons t ts ih =>
    intro h
    obtain ⟨ht_ne, ht_ns⟩ := h t (List.mem_cons_self t ts)
    cases ts with
    | nil =>
      show pySplit t = [t]
      unfold pySplit
      rw [← List.append_nil t, splitAux_append_token t ht_ns [] []]
      simp only [splitAux, List.append_nil]
      rw [if_neg (by simpa using ht_ne)]
      rw [List.reverse_reverse]
    | cons t2 ts2 =>
      show pySplit (t ++ [' '] ++ joinSep [' '] (t2 :: ts2)) = t :: t2 :: ts2
      unfold pySplit
      rw [List.append_assoc, splitAux_append_token t ht_ns _ []]
      have hsp : isPySpace ' ' = true := rfl
      simp only [List.append_nil, List.cons_append, List.nil_append, splitAux,
        hsp, if_true]
      rw [if_neg (by simpa using ht_ne)]
      rw [List.reverse_reverse]
      have := ih (fun t3 h3 => h t3 (List.mem_cons_of_mem t h3))
      unfold pySplit at this
      exact congrArg (t :: ·) this

/-- Characters of a join come from the separator or from one of the parts. -/
theorem mem_joinSep (sep : List Char) :
    ∀ (ls : List (List Char)) (c : Char), c ∈ joinSep sep ls →
      c ∈ sep ∨ ∃ l ∈ ls, c ∈ l := by
  intro ls
  induction ls with
  | nil => intro c hc; simp [joinSep] at hc
  | cons l ls ih =>
    intro c hc
    cases ls with
    | nil =>
      right
      exact ⟨l, List.mem_cons_self l [], by simpa [joinSep] using hc⟩
    | cons l2 ls2 =>
      rw [show joinSep sep (l :: l2 :: ls2) = l ++ sep ++ joinSep sep (l2 :: ls2)
        from rfl] at hc
      rcases List.mem_append.mp hc with h1 | h1
      · rcases List.mem_append.mp h1 with h2 | h2
        · right
          exact ⟨l, List.mem_cons_self l _, h2⟩
        · left
          exact h2
      · rcases ih c h1 with h2 | h2
        · left
          exact h2
        · right
          obtain ⟨l3, hl3, hc3⟩ := h2
          exact ⟨l3, List.mem_cons_of_mem _ hl3, hc3⟩

/-- Scanning a line-break-free prefix just moves it (reversed) into the
accumulator of `splitlinesAux`. -/
theorem splitlinesAux_append_line :
    ∀ (line : List Char), (∀ c ∈ line, isLineBreak c = false) →
      ∀ (rest acc : List Char),
        splitlinesAux (line ++ rest) acc = splitlinesAux rest (line.reverse ++ acc) := by
  intro line
  induction line with
  | nil => intro _ rest acc; simp
  | cons c cl ih =>
    intro h rest acc
    have hc : isLineBreak c = false := h c (List.mem_cons_self c cl)
    rw [List.cons_append]
    rw [splitlinesAux]
    simp only [hc, Bool.false_eq_true, if_false]
    rw [ih (fun c2 h2 => h c2 (List.mem_cons_of_mem c h2)) rest (c :: acc)]
    congr 1
    simp [List.reverse_cons, List.append_assoc]

/-- `'\n'.join(lines).splitlines()` recovers the lines, when every line is
non-empty and line-break-free. -/
theorem pySplitlines_joinSep :
    ∀ (ls : List (List Char)),
      (∀ l ∈ ls, l ≠ [] ∧ ∀ c ∈ l, isLineBreak c = false) →
      pySplitlines (joinSep ['\n'] ls) = ls := by
  intro ls
  induction ls with
  | nil =>
    intro _
    show splitlinesAux [] [] = []
    rw [splitlinesAux]
    simp
  | cons l ls ih =>
    intro h
    obtain ⟨hl_ne, hl_nb⟩ := h l (List.mem_cons_self l ls)
    cases ls with
    | nil =>
      show pySplitlines l = [l]
      unfold pySplitlines
      rw [← List.append_nil l, splitlinesAux_append_line l hl_nb [] []]
      rw [splitlinesAux]
      simp only [List.append_nil]
      rw [if_neg (by simpa using hl_ne)]
      rw [List.reverse_reverse]
    | cons l2 ls2 =>
      show pySplitlines (l ++ ['\n'] ++ joinSep ['\n'] (l2 :: ls2)) = l :: l2 :: ls2
      unfold pySplitlines
      rw [List.append_assoc, splitlinesAux_append_line l hl_nb _ []]
      have hnb : isLineBreak '\n' = true := rfl
      have hskip : crlfSkip '\n' (joinSep ['\n'] (l2 :: ls2))
          = joinSep ['\n'] (l2 :: ls2) := by
        unfold crlfSkip
        rw [if_neg (by decide)]
      rw [show ([('\n' : Char)] ++ joinSep ['\n'] (l2 :: ls2))
          = '\n' :: joinSep ['\n'] (l2 :: ls2) from rfl]
      rw [splitlinesAux]
      simp only [hnb, if_true, hskip, List.append_nil, List.reverse_reverse]
      have := ih (fun l3 h3 => h l3 (List.mem_cons_of_mem l h3))
      unfold pySplitlines at this
      rw [this]

/-- Mapping a function that fixes every element of a list is the identity. -/
theorem map_fix {α : Type} (f : α → α) :
    ∀ (l : List α), (∀ a ∈ l, f a = a) → l.map f = l := by
  intro l
  induction l with
  | nil => intro _; rfl
  | cons a l ih =>
    intro h
    simp only [List.map_cons, h a (List.mem_cons_self a l),
      ih fun b hb => h b (List.mem_cons_of_mem a hb)]

/-- Idempotence of the normal-level text transform of src/api.py. -/
theorem text_normal_idem (content : List Char) :
    Api.text_normal (Api.text_normal content) = Api.text_normal content := by
  unfold Api.text_normal
  set g : List Char → List Char := fun line => joinSep [' '] (pySplit line) with hg
  set ls : List (List Char) :=
    ((pySplitlines content).map g).filter (fun l => !l.isEmpty) with hls
  have hmem : ∀ l ∈ ls, ∃ line, g line = l ∧ l ≠ [] := by
    intro l hl
    rw [hls, List.mem_filter] at hl
    obtain ⟨hmap, hne⟩ := hl
    obtain ⟨line, _, hline⟩ := List.mem_map.mp hmap
    refine ⟨line, hline, ?_⟩
    intro hcontra
    rw [hcontra] at hne
    simp at hne
  have hprops : ∀ l ∈ ls, l ≠ [] ∧ ∀ c ∈ l, isLineBreak c = false := by
    intro l hl
    obtain ⟨line, hline, hne⟩ := hmem l hl
    refine ⟨hne, ?_⟩
    intro c hc
    rw [← hline, hg] at hc
    rcases mem_joinSep [' '] (pySplit line) c hc with h1 | h1
    · rw [List.mem_singleton] at h1
      subst h1
      rfl
    · obtain ⟨t, ht, hct⟩ := h1
      have hns := (splitAux_tokens line [] (by simp) t ht).2 c hct
      by_cases hb : isLineBreak c
      · exact absurd (isLineBreak_isPySpace hb) (by simp [hns])
      · simpa using hb
  have hfix : ∀ l ∈ ls, g l = l := by
    intro l hl
    obtain ⟨line, hline, _⟩ := hmem l hl
    have htok := splitAux_tokens line [] (by simp)
    rw [← hline, hg]
    have hsplit : pySplit (joinSep [' '] (pySplit line)) = pySplit line :=
      pySplit_joinSep (pySplit line) htok
    simp only [hsplit]
  rw [pySplitlines_joinSep ls hprops, map_fix g ls hfix]
  rw [List.filter_eq_self.mpr fun a ha => by simpa using (hprops a ha).1]

/-- Claim C9: the text strategy at `level = normal` is idempotent — applying
src/api.py's normal transform (collapse intra-line whitespace runs, drop blank
lines, re-join with newlines) to its own output is the identity. -/
theorem text_transform_normal_idempotent (content : List Char) :
    Api.text_transform "normal" (Api.text_transform "normal" content)
      = Api.text_transform "normal" content := by
  have h : ∀ c, Api.text_transform "normal" c = Api.text_normal c := by
    intro c
    unfold Api.text_transform
    rw [if_neg (by decide)]
  rw [h, h]
  exact text_normal_idem content

end FileCompressor
